import Mathlib

/-!
Verification development for the `abort-request` library
(`src/index.ts`): a cancellable request wrapper
(`createAbortAbleRequest`), an auto-abort coordinator
(`createAutoAbortExpiredRequest`) and the error classifier
(`isAbortError`).

The JavaScript runtime is modelled operationally: promise settlement is
a three-valued state with first-settlement-wins semantics, an
`AbortController` signal is a monotonic boolean plus the one abort
listener that `fun` registers, and the coordinator's closure variable
`cleanup` is an optional index into the list of wrapper instances
created so far.  Asynchronous completions of the underlying request are
environment events interleaved with coordinator calls in a trace.
-/

namespace AbortRequest

/-- Error values that can settle a wrapper's promise: the
`DOMException('Aborted', 'AbortError')` the wrapper raises, or an
arbitrary error produced by the underlying request. -/
inductive Err where
  | abortError
  | appErr (n : Nat)
deriving DecidableEq, Repr

/-- Settlement state of a JS promise; values are modelled as `Nat`. -/
inductive SettleState where
  | pending
  | resolved (v : Nat)
  | rejected (e : Err)
deriving DecidableEq, Repr

/-- JavaScript `resolve` on a promise: settles only if still pending. -/
def settleResolve : SettleState → Nat → SettleState
  | .pending, v => .resolved v
  | s, _ => s

/-- JavaScript `reject` on a promise: settles only if still pending. -/
def settleReject : SettleState → Err → SettleState
  | .pending, e => .rejected e
  | s, _ => s

/-- How the underlying request function behaves when invoked: it either
returns a promise (which the environment later settles), or it throws
synchronously with some error. -/
inductive UBehavior where
  | returns
  | throwsSync (e : Err)
deriving DecidableEq, Repr

/-- One wrapper instance produced by `createAbortAbleRequest`
(src/index.ts lines 29-64): its controller's signal (`aborted`),
whether `fun` has been called (`invoked`), the settle state of the
promise `fun` returned, whether the abort listener of lines 47-49 is
registered, and whether the underlying `request` was called and has
already delivered its outcome. -/
structure Wrapper where
  aborted : Bool
  invoked : Bool
  promise : SettleState
  hasListener : Bool
  underlyingInvoked : Bool
  underlyingDone : Bool
deriving DecidableEq, Repr

/-- A freshly constructed wrapper: `new AbortController()` starts
unaborted, nothing invoked yet. -/
def freshWrapper : Wrapper :=
  { aborted := false, invoked := false, promise := .pending,
    hasListener := false, underlyingInvoked := false,
    underlyingDone := false }

/-- Model of `abort` (src/index.ts lines 39-41): `abortControl.abort()` is a
no-op on an already-aborted controller; otherwise it marks the signal
aborted and fires the registered abort listener, which rejects the
wrapper's promise with `AbortError` (a no-op if already settled). -/
def wrapperAbort (w : Wrapper) : Wrapper :=
  if w.aborted then w
  else
    { w with
      aborted := true,
      promise :=
        if w.hasListener then settleReject w.promise .abortError
        else w.promise }

/-- Model of `fun` (src/index.ts lines 43-58): if the signal is already aborted,
return `Promise.reject(AbortError)` without calling the underlying
request; otherwise register the abort listener and call
`request(...arg)` inside the promise executor — a synchronous throw is
caught by the `Promise` constructor and rejects the promise with the
thrown error. -/
def wrapperInvoke (w : Wrapper) (ub : UBehavior) : Wrapper :=
  if w.aborted then
    { w with invoked := true, promise := .rejected .abortError }
  else
    match ub with
    | .returns =>
        { w with
          invoked := true,
          hasListener := true,
          underlyingInvoked := true }
    | .throwsSync e =>
        { w with
          invoked := true,
          hasListener := true,
          underlyingInvoked := true,
          underlyingDone := true,
          promise := settleReject w.promise e }

/-- State of one coordinator produced by
`createAutoAbortExpiredRequest` (src/index.ts lines 66-115):
the wrapper instances created so far, in call order, and the closure
variable `cleanup` — `none` while still `undefined` (line 73),
otherwise the index of the instance whose `abort` it closes over. -/
structure CoordState where
  instances : List Wrapper
  cleanupIdx : Option Nat
deriving DecidableEq, Repr

/-- Coordinator state right after `createAutoAbortExpiredRequest`:
no instances, `cleanup` undefined. -/
def initCoord : CoordState := { instances := [], cleanupIdx := none }

/-- Apply `f` to the element at index `j` (identity out of range). -/
def modifyIdx : List Wrapper → Nat → (Wrapper → Wrapper) → List Wrapper
  | [], _, _ => []
  | w :: ws, 0, f => f w :: ws
  | w :: ws, j + 1, f => w :: modifyIdx ws j f

/-- The synchronous body of `autoAbortExpiredRequest`
(src/index.ts lines 82-108), atomic because it contains no suspension
point: construct a fresh wrapper (line 83); if `cleanup` is set, abort
the instance it refers to (lines 96-98); point `cleanup` at the new
instance (lines 101-103); resolve the arguments (line 105, no state
effect for a well-behaved argument builder); invoke the new wrapper and
append it (line 107). -/
def coordCall (s : CoordState) (ub : UBehavior) : CoordState :=
  let insts :=
    match s.cleanupIdx with
    | some j => modifyIdx s.instances j wrapperAbort
    | none => s.instances
  { instances := insts ++ [wrapperInvoke freshWrapper ub],
    cleanupIdx := some insts.length }

/-- Model of `autoAbortExpiredRequest.abort` (src/index.ts lines 110-112): it
calls `cleanup()` unconditionally; while `cleanup` is still
`undefined` this throws a `TypeError`, modelled as `Except.error`. -/
def coordAbortRun (s : CoordState) : Except Unit CoordState :=
  match s.cleanupIdx with
  | none => .error ()
  | some j =>
      .ok { s with instances := modifyIdx s.instances j wrapperAbort }

/-- Events of one coordinator's execution: a coordinator call
(its whole synchronous phase), delivery of the underlying request's
outcome for instance `i` (the `.then`/`.catch` microtask of
src/index.ts lines 51-56), or `autoAbortExpiredRequest.abort()`. -/
inductive Event where
  | call (ub : UBehavior)
  | deliverResolve (i : Nat) (v : Nat)
  | deliverReject (i : Nat) (e : Err)
  | coordAbort
deriving DecidableEq, Repr

/-- An outcome delivery for instance `i` is possible only if that
instance actually called the underlying request and the outcome has not
been delivered yet. -/
def canDeliver (s : CoordState) (i : Nat) : Bool :=
  (s.instances.getD i freshWrapper).underlyingInvoked
    && !(s.instances.getD i freshWrapper).underlyingDone

/-- One step of the coordinator system.  A delivery that is not
possible leaves the state unchanged (such an event cannot occur);
`coordAbort` on an undefined `cleanup` throws without changing state. -/
def step (s : CoordState) : Event → CoordState
  | .call ub => coordCall s ub
  | .deliverResolve i v =>
      if canDeliver s i then
        { s with
          instances := modifyIdx s.instances i fun w =>
            { w with
              promise := settleResolve w.promise v,
              underlyingDone := true } }
      else s
  | .deliverReject i e =>
      if canDeliver s i then
        { s with
          instances := modifyIdx s.instances i fun w =>
            { w with
              promise := settleReject w.promise e,
              underlyingDone := true } }
      else s
  | .coordAbort =>
      match coordAbortRun s with
      | .ok s' => s'
      | .error _ => s

/-- Run a trace of events from a state. -/
def run (s : CoordState) (tr : List Event) : CoordState :=
  tr.foldl step s

/-! ### The error classifier `isAbortError` (src/index.ts lines 25-27)

`isAbortError` is `(error) => error.name === 'AbortError'`.  To settle
what this does on arbitrary JavaScript values we model the values a
caller can pass and JavaScript property access: reading `.name` on
`null` or `undefined` throws a `TypeError`; on other primitives it
yields `undefined` (they box and lack a `name` own property); a
function's `name` is its name string; on an object it is the `name`
property if present, else `undefined`. -/

/-- JavaScript values, as far as `error.name === 'AbortError'` can
distinguish them. -/
inductive JSValue where
  | vnull
  | vundefined
  | vbool (b : Bool)
  | vnum (n : Int)
  | vstr (s : String)
  | vfun (name : String)
  | vobj (props : List (String × JSValue))

/-- Look a property up in an object's own-property list. -/
def lookupProp (k : String) : List (String × JSValue) → Option JSValue
  | [] => none
  | (k2, v) :: rest => if k2 = k then some v else lookupProp k rest

/-- JavaScript `error.name`: a `TypeError` (modelled as `Except.error`)
on `null`/`undefined`, otherwise the `name` property's value. -/
def getName : JSValue → Except Unit JSValue
  | .vnull => .error ()
  | .vundefined => .error ()
  | .vbool _ => .ok .vundefined
  | .vnum _ => .ok .vundefined
  | .vstr _ => .ok .vundefined
  | .vfun name => .ok (.vstr name)
  | .vobj props => .ok ((lookupProp "name" props).getD .vundefined)

/-- JavaScript strict equality against a string literal: true exactly
for the identical string. -/
def strictEqStr : JSValue → String → Bool
  | .vstr s, t => s = t
  | _, _ => false

/-- Model of `isAbortError` (src/index.ts lines 25-27):
`error.name === 'AbortError'`, with the property access able to
throw. -/
def jsIsAbortError (v : JSValue) : Except Unit Bool :=
  match getName v with
  | .error e => .error e
  | .ok n => .ok (strictEqStr n "AbortError")

/-! ### Call arguments and `getArg` (src/index.ts lines 86-93)

An argument to the coordinator is either an ordinary (non-callable)
value or a callable; a callable argument, when treated as the builder
form, receives the `{ signal }` object of the new instance (represented
by an opaque token) and returns the argument list to forward. -/

/-- One argument passed to the coordinator. -/
inductive Arg where
  | value (n : Nat)
  | fn (f : Nat → List Arg)

/-- Model of `getArg` (src/index.ts lines 86-93): when exactly one argument was
supplied and `typeof arg[0] === 'function'`, call it with the new
instance's signal and forward its return value; otherwise forward the
received argument list verbatim. -/
def getArg (signal : Nat) : List Arg → List Arg
  | [Arg.fn f] => f signal
  | arg => arg

/-! ### The sub-steps of one coordinator call (src/index.ts 82-108)

To reason about the order of the coordinator's synchronous
bookkeeping, the body of `autoAbortExpiredRequest` is also embedded
statement by statement.  `callSteps` lists, in source order, the
sub-steps the body executes; `runCallStep` gives each sub-step's effect
on the call frame (the coordinator state plus the local
`abortAbleReQuest`).  Folding the sub-steps recovers `coordCall`
(proved below). -/

/-- The observable sub-steps of one coordinator call. -/
inductive CallStep where
  | construct
  | cancelPrev
  | record
  | resolveArgs
  | invoke
deriving DecidableEq, Repr

/-- The sub-steps the body executes from a given prior state, in
source order: line 83 constructs the wrapper; lines 96-98 run the
previous `cleanup` only if it is defined; lines 101-103 reassign
`cleanup`; line 105 calls `getArg()`; line 107 invokes the wrapper. -/
def callSteps (s : CoordState) : List CallStep :=
  [CallStep.construct]
    ++ (match s.cleanupIdx with
        | some _ => [CallStep.cancelPrev]
        | none => [])
    ++ [CallStep.record, CallStep.resolveArgs, CallStep.invoke]

/-- A call frame: the coordinator state together with the local
`abortAbleReQuest` under construction. -/
structure CallFrame where
  coord : CoordState
  newWrapper : Wrapper
deriving DecidableEq, Repr

/-- Effect of each sub-step on the call frame. `resolveArgs` calls the
caller-supplied argument builder, which only reads the new signal, so
it leaves the frame unchanged. -/
def runCallStep (ub : UBehavior) (f : CallFrame) : CallStep → CallFrame
  | .construct => { f with newWrapper := freshWrapper }
  | .cancelPrev =>
      { f with
        coord :=
          match f.coord.cleanupIdx with
          | some j =>
              { f.coord with
                instances := modifyIdx f.coord.instances j wrapperAbort }
          | none => f.coord }
  | .record =>
      { f with
        coord :=
          { f.coord with cleanupIdx := some f.coord.instances.length } }
  | .resolveArgs => f
  | .invoke =>
      { coord :=
          { f.coord with
            instances :=
              f.coord.instances ++ [wrapperInvoke f.newWrapper ub] },
        newWrapper := wrapperInvoke f.newWrapper ub }

/-- The call frame reached right before the `invoke` sub-step of one
coordinator call: the effect of the synchronous bookkeeping that runs
strictly before the underlying request can be invoked. -/
def midFrame (s : CoordState) (ub : UBehavior) : CallFrame :=
  ((callSteps s).takeWhile fun st => !(st == CallStep.invoke)).foldl
    (runCallStep ub) { coord := s, newWrapper := freshWrapper }

/-- Modelled from the spec: the order §4.2 states for the bookkeeping
of one call — cancel the previous instance (if one is recorded), then
construct the new instance, then resolve the arguments, then record the
new cancel capability, then invoke. -/
def specCallSteps (prevRecorded : Bool) : List CallStep :=
  (if prevRecorded then [CallStep.cancelPrev] else [])
    ++ [CallStep.construct, CallStep.resolveArgs, CallStep.record,
        CallStep.invoke]

/-- The order the code actually executes (src/index.ts lines 82-108):
construct first, then cancel the previous instance if one is recorded,
then record the new cancel capability, then resolve the arguments, and
only then invoke. -/
def amendedCallSteps (prevRecorded : Bool) : List CallStep :=
  CallStep.construct ::
    ((if prevRecorded then [CallStep.cancelPrev] else [])
      ++ [CallStep.record, CallStep.resolveArgs, CallStep.invoke])

/-- Shape of the coordinator state after a burst of back-to-back calls
with behaviours `ubs`: one instance per call; `cleanup` points at the
last; every superseded instance whose underlying request had been
started (behaviour `returns`) has its promise rejected with
`AbortError`; the newest instance is exactly a fresh wrapper invoked
with the last behaviour. -/
def burstInv (ubs : List UBehavior) (s : CoordState) : Prop :=
  s.instances.length = ubs.length
  ∧ s.cleanupIdx
      = (if ubs.length = 0 then none else some (ubs.length - 1))
  ∧ (∀ i, i + 1 < ubs.length → ubs.getD i .returns = .returns →
      (s.instances.getD i freshWrapper).promise = .rejected .abortError)
  ∧ (1 ≤ ubs.length →
      s.instances.getD (ubs.length - 1) freshWrapper
        = wrapperInvoke freshWrapper (ubs.getD (ubs.length - 1) .returns))

/-! ### List index helpers -/

theorem modifyIdx_length (l : List Wrapper) (j : Nat)
    (f : Wrapper → Wrapper) : (modifyIdx l j f).length = l.length := by
  induction l generalizing j with
  | nil => rfl
  | cons w ws ih =>
      cases j with
      | zero => simp [modifyIdx]
      | succ j => simp [modifyIdx, ih]

theorem getD_len_le {α : Type} (l : List α) (i : Nat) (d : α)
    (h : l.length ≤ i) : l.getD i d = d := by
  induction l generalizing i with
  | nil => simp [List.getD]
  | cons w ws ih =>
      cases i with
      | zero => simp at h
      | succ i =>
          simp only [List.getD_cons_succ]
          exact ih i (by simpa using h)

theorem getD_append_lt {α : Type} (l l2 : List α) (i : Nat) (d : α)
    (h : i < l.length) : (l ++ l2).getD i d = l.getD i d := by
  induction l generalizing i with
  | nil => simp at h
  | cons w ws ih =>
      cases i with
      | zero => simp
      | succ i =>
          simp only [List.cons_append, List.getD_cons_succ]
          exact ih i (by simpa using h)

theorem getD_append_len {α : Type} (l : List α) (w d : α) :
    (l ++ [w]).getD l.length d = w := by
  induction l with
  | nil => rfl
  | cons x xs ih => simp [ih]

theorem modifyIdx_getD (l : List Wrapper) (j i : Nat)
    (f : Wrapper → Wrapper) (d : Wrapper) (h : i < l.length) :
    (modifyIdx l j f).getD i d
      = if i = j then f (l.getD i d) else l.getD i d := by
  induction l generalizing i j with
  | nil => simp at h
  | cons w ws ih =>
      cases j with
      | zero =>
          cases i with
          | zero => simp [modifyIdx]
          | succ i => simp [modifyIdx]
      | succ j =>
          cases i with
          | zero => simp [modifyIdx]
          | succ i =>
              simp only [modifyIdx, List.getD_cons_succ]
              rw [ih j i (by simpa using h)]
              simp [Nat.succ_inj]

/-! ### Settlement is final -/

theorem settleResolve_of_ne_pending (q : SettleState) (v : Nat)
    (h : q ≠ .pending) : settleResolve q v = q := by
  cases q with
  | pending => exact absurd rfl h
  | resolved _ => rfl
  | rejected _ => rfl

theorem settleReject_of_ne_pending (q : SettleState) (e : Err)
    (h : q ≠ .pending) : settleReject q e = q := by
  cases q with
  | pending => exact absurd rfl h
  | resolved _ => rfl
  | rejected _ => rfl

theorem wrapperAbort_promise_of_ne_pending (w : Wrapper)
    (h : w.promise ≠ .pending) : (wrapperAbort w).promise = w.promise := by
  unfold wrapperAbort
  by_cases ha : w.aborted
  · simp [ha]
  · simp only [ha, if_false]
    by_cases hl : w.hasListener
    · simp [hl, settleReject_of_ne_pending _ _ h]
    · simp [hl]

theorem step_preserves_settled (s : CoordState) (ev : Event) (i : Nat)
    (q : SettleState) (hq : q ≠ .pending)
    (h : (s.instances.getD i freshWrapper).promise = q) :
    ((step s ev).instances.getD i freshWrapper).promise = q := by
  by_cases hi : i < s.instances.length
  · cases ev with
    | call ub =>
        show ((coordCall s ub).instances.getD i freshWrapper).promise = q
        unfold coordCall
        cases hc : s.cleanupIdx with
        | none =>
            simp only [hc]
            rw [getD_append_lt _ _ _ _ hi, h]
        | some j =>
            simp only [hc]
            rw [getD_append_lt _ _ _ _ (by rw [modifyIdx_length]; exact hi),
              modifyIdx_getD _ _ _ _ _ hi]
            by_cases hij : i = j
            · rw [if_pos hij,
                wrapperAbort_promise_of_ne_pending _ (by rw [h]; exact hq)]
              exact h
            · rw [if_neg hij]
              exact h
    | deliverResolve k v =>
        simp only [step]
        by_cases hcd : canDeliver s k
        · rw [if_pos hcd]
          show ((modifyIdx s.instances k _).getD i freshWrapper).promise = q
          rw [modifyIdx_getD _ _ _ _ _ hi]
          by_cases hik : i = k
          · rw [if_pos hik]
            show settleResolve (s.instances.getD i freshWrapper).promise v = q
            rw [h, settleResolve_of_ne_pending _ _ hq]
          · rw [if_neg hik]
            exact h
        · rw [if_neg hcd]
          exact h
    | deliverReject k e =>
        simp only [step]
        by_cases hcd : canDeliver s k
        · rw [if_pos hcd]
          show ((modifyIdx s.instances k _).getD i freshWrapper).promise = q
          rw [modifyIdx_getD _ _ _ _ _ hi]
          by_cases hik : i = k
          · rw [if_pos hik]
            show settleReject (s.instances.getD i freshWrapper).promise e = q
            rw [h, settleReject_of_ne_pending _ _ hq]
          · rw [if_neg hik]
            exact h
        · rw [if_neg hcd]
          exact h
    | coordAbort =>
        simp only [step, coordAbortRun]
        cases hc : s.cleanupIdx with
        | none => simpa using h
        | some j =>
            simp only
            rw [modifyIdx_getD _ _ _ _ _ hi]
            by_cases hij : i = j
            · rw [if_pos hij,
                wrapperAbort_promise_of_ne_pending _ (by rw [h]; exact hq)]
              exact h
            · rw [if_neg hij]
              exact h
  · rw [getD_len_le _ _ _ (by omega)] at h
    exact absurd (h ▸ rfl) hq

theorem run_preserves_settled (tr : List Event) (s : CoordState) (i : Nat)
    (q : SettleState) (hq : q ≠ .pending)
    (h : (s.instances.getD i freshWrapper).promise = q) :
    ((run s tr).instances.getD i freshWrapper).promise = q := by
  induction tr generalizing s with
  | nil => exact h
  | cons ev tr ih => exact ih (step s ev) (step_preserves_settled s ev i q hq h)

/-! ### Once `cleanup` is assigned it stays assigned -/

theorem step_cleanup_isSome (s : CoordState) (ev : Event)
    (h : s.cleanupIdx.isSome) : (step s ev).cleanupIdx.isSome := by
  cases ev with
  | call ub => simp [step, coordCall]
  | deliverResolve i v =>
      simp only [step]
      split
      · exact h
      · exact h
  | deliverReject i e =>
      simp only [step]
      split
      · exact h
      · exact h
  | coordAbort =>
      simp only [step, coordAbortRun]
      cases hc : s.cleanupIdx with
      | none => rw [hc] at h; exact absurd h (by simp)
      | some j => simp [hc]

theorem run_cleanup_isSome (tr : List Event) (s : CoordState)
    (h : s.cleanupIdx.isSome) : (run s tr).cleanupIdx.isSome := by
  induction tr generalizing s with
  | nil => exact h
  | cons ev tr ih => exact ih (step s ev) (step_cleanup_isSome s ev h)

/-! ### The burst of back-to-back calls -/

/-- Aborting an instance whose underlying request is in flight rejects
its promise with `AbortError`. -/
theorem abort_invoked_fresh :
    (wrapperAbort (wrapperInvoke freshWrapper .returns)).promise
      = .rejected .abortError := rfl

theorem burst_holds (ubs : List UBehavior) :
    burstInv ubs (run initCoord (ubs.map Event.call)) := by
  induction ubs using List.reverseRecOn with
  | nil =>
      refine ⟨rfl, rfl, ?_, ?_⟩
      · intro i h
        simp at h
      · intro h
        simp at h
  | append_singleton l u ih =>
      obtain ⟨hlen, hclean, hrej, hlast⟩ := ih
      have hrun : run initCoord ((l ++ [u]).map Event.call)
          = coordCall (run initCoord (l.map Event.call)) u := by
        simp [run, List.map_append, List.foldl_append, step]
      rw [hrun]
      set s' : CoordState := run initCoord (l.map Event.call) with hs'
      by_cases hl : l.length = 0
      · have hnil : l = [] := List.length_eq_zero.mp hl
        subst hnil
        have hs0 : s' = initCoord := rfl
        rw [hs0]
        refine ⟨by simp [coordCall, initCoord], by simp [coordCall, initCoord], ?_, ?_⟩
        · intro i hi
          simp at hi
        · intro _
          simp [coordCall, initCoord]
      · have hn : 1 ≤ l.length := by omega
        rw [if_neg hl] at hclean
        have hcall : coordCall s' u
            = { instances :=
                  modifyIdx s'.instances (l.length - 1) wrapperAbort
                    ++ [wrapperInvoke freshWrapper u],
                cleanupIdx :=
                  some (modifyIdx s'.instances (l.length - 1)
                    wrapperAbort).length } := by
          rw [coordCall, hclean]
        rw [hcall]
        have hmlen : (modifyIdx s'.instances (l.length - 1)
            wrapperAbort).length = l.length := by
          rw [modifyIdx_length, hlen]
        refine ⟨?_, ?_, ?_, ?_⟩
        · simp [hmlen]
        · simp only [hmlen, List.length_append, List.length_singleton]
          rw [if_neg (by omega)]
          simp
        · intro i hi hret
          have hi' : i < l.length := by
            simp only [List.length_append, List.length_singleton] at hi
            omega
          have hgret : l.getD i .returns = .returns := by
            rw [← getD_append_lt l [u] i .returns hi']
            exact hret
          rw [getD_append_lt _ _ _ _ (by rw [hmlen]; exact hi'),
            modifyIdx_getD _ _ _ _ _ (by rw [hlen]; exact hi')]
          by_cases hij : i = l.length - 1
          · rw [if_pos hij]
            subst hij
            rw [hlast hn, hgret]
            exact abort_invoked_fresh
          · rw [if_neg hij]
            exact hrej i (by omega) hgret
        · intro _
          simp only [List.length_append, List.length_singleton]
          have h1 : l.length + 1 - 1 = l.length := by omega
          rw [h1, getD_append_len l u UBehavior.returns]
          generalize hA : modifyIdx s'.instances (l.length - 1) wrapperAbort = A
          rw [hA] at hmlen
          rw [← hmlen]
          exact getD_append_len _ _ _

/-! ### Shape of one coordinator call -/

theorem coordCall_length (s : CoordState) (ub : UBehavior) :
    (coordCall s ub).instances.length = s.instances.length + 1 := by
  unfold coordCall
  cases hc : s.cleanupIdx with
  | none => simp
  | some j => simp [modifyIdx_length]

theorem coordCall_getD_new (s : CoordState) (ub : UBehavior) :
    (coordCall s ub).instances.getD s.instances.length freshWrapper
      = wrapperInvoke freshWrapper ub := by
  unfold coordCall
  cases hc : s.cleanupIdx with
  | none =>
      show (s.instances ++ [wrapperInvoke freshWrapper ub]).getD
          s.instances.length freshWrapper = wrapperInvoke freshWrapper ub
      exact getD_append_len _ _ _
  | some j =>
      show (modifyIdx s.instances j wrapperAbort
            ++ [wrapperInvoke freshWrapper ub]).getD
          s.instances.length freshWrapper = wrapperInvoke freshWrapper ub
      have hAlen := modifyIdx_length s.instances j wrapperAbort
      generalize hA : modifyIdx s.instances j wrapperAbort = A
      rw [hA] at hAlen
      rw [← hAlen]
      exact getD_append_len _ _ _

/-! ### The classifier on string comparison -/

theorem strictEqStr_abort_iff (n : JSValue) :
    strictEqStr n "AbortError" = true ↔ n = JSValue.vstr "AbortError" := by
  cases n <;> simp [strictEqStr]

/-! ## Claims -/

/-- Claim C7: if the wrapper's cancellation token is already aborted
when `fun` is called, the returned future rejects immediately with
`AbortError` and the underlying request function is not invoked (the
wrapper's record of underlying invocations is unchanged). -/
theorem c7_invoke_when_aborted (w : Wrapper) (ub : UBehavior)
    (h : w.aborted = true) :
    (wrapperInvoke w ub).promise = .rejected .abortError
    ∧ (wrapperInvoke w ub).underlyingInvoked = w.underlyingInvoked := by
  unfold wrapperInvoke
  rw [if_pos h]
  exact ⟨rfl, rfl⟩

/-- Witness for C7 at a concrete already-aborted wrapper. -/
theorem c7_witness :
    (wrapperInvoke { freshWrapper with aborted := true }
        UBehavior.returns).promise = .rejected .abortError
    ∧ (wrapperInvoke { freshWrapper with aborted := true }
        UBehavior.returns).underlyingInvoked
      = ({ freshWrapper with aborted := true } : Wrapper).underlyingInvoked :=
  c7_invoke_when_aborted { freshWrapper with aborted := true }
    UBehavior.returns rfl

/-- Claim C8: if the underlying request throws synchronously on a
coordinator call, the wrapper still returns a future (the new instance
exists and was invoked) and that future is rejected with the original
thrown error. -/
theorem c8_sync_throw (s : CoordState) (e : Err) :
    ((coordCall s (.throwsSync e)).instances.getD
        ((coordCall s (.throwsSync e)).instances.length - 1)
        freshWrapper).promise = .rejected e
    ∧ ((coordCall s (.throwsSync e)).instances.getD
        ((coordCall s (.throwsSync e)).instances.length - 1)
        freshWrapper).invoked = true := by
  rw [coordCall_length, Nat.add_sub_cancel, coordCall_getD_new]
  exact ⟨rfl, rfl⟩

/-- Claim C10: every coordinator call constructs a fresh wrapper whose
token starts unaborted, whatever happened before (earlier calls,
cancellations, manual aborts): the new instance is exactly a fresh
wrapper invoked with the requested behaviour, and when the underlying
request returns normally the new instance's signal is unaborted, its
future pending, and its underlying request started. -/
theorem c10_fresh_per_call (tr : List Event) (ub : UBehavior) :
    freshWrapper.aborted = false
    ∧ (coordCall (run initCoord tr) ub).instances.getD
        (run initCoord tr).instances.length freshWrapper
      = wrapperInvoke freshWrapper ub
    ∧ ((coordCall (run initCoord tr) UBehavior.returns).instances.getD
        (run initCoord tr).instances.length freshWrapper).aborted = false
    ∧ ((coordCall (run initCoord tr) UBehavior.returns).instances.getD
        (run initCoord tr).instances.length freshWrapper).promise
      = .pending
    ∧ ((coordCall (run initCoord tr) UBehavior.returns).instances.getD
        (run initCoord tr).instances.length freshWrapper).underlyingInvoked
      = true := by
  refine ⟨rfl, coordCall_getD_new _ _, ?_, ?_, ?_⟩ <;>
    rw [coordCall_getD_new] <;> rfl

/-- Claim C9: the coordinator treats its arguments as the
signal-injecting builder form exactly when one argument was supplied
and it is callable — then the callable receives the signal and its
return value is forwarded — and for any other arity or argument type
the received arguments are forwarded verbatim. -/
theorem c9_arg_forms :
    (∀ (f : Nat → List Arg) (sig : Nat), getArg sig [Arg.fn f] = f sig)
    ∧ (∀ (sig : Nat) (args : List Arg),
        (∀ f : Nat → List Arg, args ≠ [Arg.fn f]) →
          getArg sig args = args) := by
  constructor
  · intro f sig
    rfl
  · intro sig args hne
    match args with
    | [] => rfl
    | [Arg.value n] => rfl
    | [Arg.fn f] => exact absurd rfl (hne f)
    | Arg.value n :: b :: rest => rfl
    | Arg.fn f :: b :: rest => rfl

/-- Witness for C9: a two-argument call is forwarded verbatim. -/
theorem c9_witness :
    getArg 0 [Arg.value 3, Arg.value 4] = [Arg.value 3, Arg.value 4] :=
  c9_arg_forms.2 0 [Arg.value 3, Arg.value 4]
    (fun f h => by
      injection h with h1 h2
      exact Arg.noConfusion h1)

/-- Claim C2 counterexample: `isAbortError(null)` and
`isAbortError(undefined)` throw a `TypeError` (reading `.name` of a
nullish value), so the classifier does not return without throwing on
every input. -/
theorem c2_counterexample :
    jsIsAbortError JSValue.vnull = Except.error ()
    ∧ jsIsAbortError JSValue.vundefined = Except.error () :=
  ⟨rfl, rfl⟩

/-- Claim C2 (amended): for every input other than `null` and
`undefined`, `isAbortError` returns without throwing, and it returns
true exactly when the input's `name` property is the string
`AbortError`; on `null` and `undefined` it throws a `TypeError`. -/
theorem c2_classifier (v : JSValue) (hn : v ≠ JSValue.vnull)
    (hu : v ≠ JSValue.vundefined) :
    (∃ b, jsIsAbortError v = Except.ok b)
    ∧ (jsIsAbortError v = Except.ok true
        ↔ getName v = Except.ok (JSValue.vstr "AbortError")) := by
  cases v with
  | vnull => exact absurd rfl hn
  | vundefined => exact absurd rfl hu
  | vbool b =>
      refine ⟨⟨_, rfl⟩, ?_⟩
      simp only [jsIsAbortError, getName, Except.ok.injEq]
      exact strictEqStr_abort_iff _
  | vnum n =>
      refine ⟨⟨_, rfl⟩, ?_⟩
      simp only [jsIsAbortError, getName, Except.ok.injEq]
      exact strictEqStr_abort_iff _
  | vstr t =>
      refine ⟨⟨_, rfl⟩, ?_⟩
      simp only [jsIsAbortError, getName, Except.ok.injEq]
      exact strictEqStr_abort_iff _
  | vfun name =>
      refine ⟨⟨_, rfl⟩, ?_⟩
      simp only [jsIsAbortError, getName, Except.ok.injEq]
      exact strictEqStr_abort_iff _
  | vobj props =>
      refine ⟨⟨_, rfl⟩, ?_⟩
      simp only [jsIsAbortError, getName, Except.ok.injEq]
      exact strictEqStr_abort_iff _

/-- Witness for C2 at a `DOMException`-like object carrying the
marker. -/
theorem c2_witness :
    (∃ b, jsIsAbortError
        (JSValue.vobj [("name", JSValue.vstr "AbortError")])
      = Except.ok b)
    ∧ (jsIsAbortError (JSValue.vobj [("name", JSValue.vstr "AbortError")])
          = Except.ok true
        ↔ getName (JSValue.vobj [("name", JSValue.vstr "AbortError")])
          = Except.ok (JSValue.vstr "AbortError")) :=
  c2_classifier (JSValue.vobj [("name", JSValue.vstr "AbortError")])
    (fun h => JSValue.noConfusion h) (fun h => JSValue.noConfusion h)

/-- Claim C1: for a burst of back-to-back coordinator calls, none of
which had settled when the next was issued (each superseded call's
underlying request was genuinely in flight, behaviour `returns`), and
whatever events follow the burst, every future but the last is rejected
with `AbortError`, and only the last call's future can be resolved with
a value. -/
theorem c1_at_most_one_resolves (ubs : List UBehavior) (rest : List Event)
    (hflight : ∀ i, i + 1 < ubs.length →
      ubs.getD i UBehavior.returns = UBehavior.returns) :
    (∀ i, i + 1 < ubs.length →
      ((run initCoord (ubs.map Event.call ++ rest)).instances.getD i
          freshWrapper).promise = .rejected .abortError)
    ∧ (∀ i v, i < ubs.length →
        ((run initCoord (ubs.map Event.call ++ rest)).instances.getD i
            freshWrapper).promise = .resolved v →
          i = ubs.length - 1) := by
  obtain ⟨hlen, hclean, hrej, hlast⟩ := burst_holds ubs
  have hruns : run initCoord (ubs.map Event.call ++ rest)
      = run (run initCoord (ubs.map Event.call)) rest := by
    simp [run, List.foldl_append]
  have hkey : ∀ i, i + 1 < ubs.length →
      ((run initCoord (ubs.map Event.call ++ rest)).instances.getD i
          freshWrapper).promise = .rejected .abortError := by
    intro i hi
    rw [hruns]
    exact run_preserves_settled rest _ i _
      (fun hh => SettleState.noConfusion hh) (hrej i hi (hflight i hi))
  refine ⟨hkey, ?_⟩
  intro i v hi hres
  by_cases hi2 : i + 1 < ubs.length
  · rw [hkey i hi2] at hres
    exact SettleState.noConfusion hres
  · omega

/-- Witness for C1: two back-to-back calls, then the second call's
underlying request resolves; the first call's future is rejected with
`AbortError`. -/
theorem c1_witness :
    ((run initCoord
        ([UBehavior.returns, UBehavior.returns].map Event.call
          ++ [Event.deliverResolve 1 7])).instances.getD 0
      freshWrapper).promise = .rejected .abortError :=
  (c1_at_most_one_resolves [UBehavior.returns, UBehavior.returns]
      [Event.deliverResolve 1 7]
      (fun i hi => by
        have h0 : i = 0 := by simp at hi; omega
        subst h0
        rfl)).1 0 (by decide)

/-- Claim C3 counterexample: calling the coordinator's `abort()` before
any call has ever been made runs `cleanup()` with `cleanup` still
`undefined`, which throws a `TypeError`. -/
theorem c3_counterexample : coordAbortRun initCoord = Except.error () :=
  rfl

/-- Claim C3 (amended): once at least one call has been made,
`abort()` never throws — in particular not after the current instance
has settled — but `abort()` before any call throws a `TypeError`
because `cleanup` is still undefined. -/
theorem c3_abort_after_first_call (ub : UBehavior) (tr : List Event) :
    ∃ s', coordAbortRun (run initCoord (Event.call ub :: tr))
      = Except.ok s' := by
  have h : (run initCoord (Event.call ub :: tr)).cleanupIdx.isSome := by
    have : run initCoord (Event.call ub :: tr)
        = run (step initCoord (Event.call ub)) tr := rfl
    rw [this]
    exact run_cleanup_isSome tr _ (by simp [step, coordCall])
  cases hc : (run initCoord (Event.call ub :: tr)).cleanupIdx with
  | none => rw [hc] at h; exact absurd h (by simp)
  | some j =>
      exact ⟨{ instances := modifyIdx
                 (run initCoord (Event.call ub :: tr)).instances j
                 wrapperAbort,
               cleanupIdx := some j },
        by unfold coordAbortRun; rw [hc]⟩

/-- Claim C4: when two calls are issued back-to-back in the same
synchronous turn, the first call's signal is aborted synchronously
inside the second call and strictly before the second call's
underlying request can be invoked: in the frame reached right before
the `invoke` sub-step the first instance is already aborted while the
new wrapper has not invoked the underlying request and no new instance
has been appended; after the second call completes the first signal is
aborted. -/
theorem c4_cancel_before_invoke (u1 u2 : UBehavior) :
    callSteps (coordCall initCoord u1)
      = [CallStep.construct, CallStep.cancelPrev, CallStep.record,
         CallStep.resolveArgs, CallStep.invoke]
    ∧ ((midFrame (coordCall initCoord u1) u2).coord.instances.getD 0
        freshWrapper).aborted = true
    ∧ (midFrame (coordCall initCoord u1) u2).newWrapper.underlyingInvoked
      = false
    ∧ (midFrame (coordCall initCoord u1) u2).coord.instances.length = 1
    ∧ ((run initCoord [Event.call u1, Event.call u2]).instances.getD 0
        freshWrapper).aborted = true := by
  cases u1 <;> cases u2 <;> exact ⟨rfl, rfl, rfl, rfl, rfl⟩

/-- Claim C5 counterexample: at the concrete state reached after one
call (a previous cancel capability is recorded), the executed sub-step
order is not the order the spec states (cancel previous, construct,
resolve arguments, record, invoke). -/
theorem c5_counterexample :
    callSteps (coordCall initCoord UBehavior.returns)
      ≠ specCallSteps
          (coordCall initCoord UBehavior.returns).cleanupIdx.isSome := by
  decide

/-- Claim C5 (amended): the bookkeeping of one call runs synchronously
in the order the code executes — construct the new instance first, then
invoke the previous instance's cancel capability if one is recorded,
then record the new instance's cancel capability, then resolve the call
arguments, and only then invoke the new instance — and folding these
sub-steps over any prior state reproduces the coordinator's atomic
call. -/
theorem c5_call_order (s : CoordState) (ub : UBehavior) :
    callSteps s = amendedCallSteps s.cleanupIdx.isSome
    ∧ ((callSteps s).foldl (runCallStep ub)
        { coord := s, newWrapper := freshWrapper }).coord = coordCall s ub := by
  obtain ⟨insts, cIdx⟩ := s
  cases cIdx with
  | none => exact ⟨rfl, rfl⟩
  | some j => exact ⟨rfl, rfl⟩

/-- Claim C6: a wrapper's future settles at most once whatever the
interleaving of cancellation and underlying completion — aborting is
idempotent, aborting after settlement does not change the promise, and
once an instance's promise is settled no sequence of further events
(new calls, deliveries, manual aborts) ever changes it. -/
theorem c6_settles_once (s : CoordState) (tr : List Event) (i : Nat) :
    (∀ w : Wrapper, wrapperAbort (wrapperAbort w) = wrapperAbort w)
    ∧ (∀ w : Wrapper, w.promise ≠ .pending →
        (wrapperAbort w).promise = w.promise)
    ∧ ((s.instances.getD i freshWrapper).promise ≠ .pending →
        ((run s tr).instances.getD i freshWrapper).promise
          = (s.instances.getD i freshWrapper).promise) := by
  refine ⟨?_, ?_, ?_⟩
  · intro w
    unfold wrapperAbort
    by_cases ha : w.aborted
    · simp [ha]
    · simp [ha]
  · exact fun w h => wrapperAbort_promise_of_ne_pending w h
  · intro h
    exact run_preserves_settled tr s i _ h rfl

/-- Witness for C6: a settled instance is unchanged by two successive
manual aborts. -/
theorem c6_witness :
    ((run (⟨[⟨false, true, .resolved 5, true, true, true⟩], some 0⟩ :
          CoordState)
        [Event.coordAbort, Event.coordAbort]).instances.getD 0
      freshWrapper).promise = .resolved 5 := by
  have h := (c6_settles_once
      (⟨[⟨false, true, .resolved 5, true, true, true⟩], some 0⟩ :
        CoordState)
      [Event.coordAbort, Event.coordAbort] 0).2.2 (by decide)
  exact h.trans rfl

end AbortRequest
